import Mathlib

/-!
Shallow embedding of the Atomsmiths club-site request handlers.

Sources embedded:
* src/unnamed/part_001 — the `DatabaseService` class (member / event / blog
  CRUD, dashboard aggregates) and the query-parameter request router.
* src/api/join.js      — the standalone member-registration handler.
* src/unnamed/part_000 — the raw-insert member-registration handler.

Modelling conventions:
* MongoDB collections are Lean lists in insertion order; `insertOne`
  appends, `findOne` is `List.find?` (first match), `deleteOne` removes the
  first match, `findOneAndUpdate` updates the first match, and `deleteMany`
  with a filter drops every match.
* `_id` values are `Nat`, drawn from a `nextId` counter on the store; the
  JS code round-trips ids through `ObjectId` strings, which preserves
  equality, so plain `Nat` ids are faithful for the lookups embedded here.
* JS timestamps are `Int` (milliseconds).  A JS `Date` value produced by
  parsing is `Option Int`: `none` is the Invalid Date (numeric value NaN),
  `some t` a valid date.  `new Date()` at call time is an explicit
  `now : Int` argument; the handful of `new Date()` calls inside one
  operation are modelled as the same instant.
* Optional / falsy JS string fields are `Option String`; `none` models a
  missing, null or undefined field, and truthiness of a string also
  excludes `""` (see `truthyStr`).
* A thrown `Error` is `Except.error` carrying the message.  Every
  operation returns the (possibly unchanged) store next to the result, so
  that what a throw left behind is visible.
* Documents are modelled with the fields the embedded code reads or
  writes; response payloads of pure GET endpoints (member/event/blog
  listings, dashboard numbers) are not modelled, only their status codes
  and the fact that they leave the store unchanged.
-/

namespace Atomsmiths

/-- Truthiness of an optional JS string: `undefined`, `null` and `""` are
falsy, every other string is truthy. -/
def truthyStr : Option String → Bool
  | none => false
  | some s => !(s == "")

/-- JS `String.prototype.toLowerCase` on the ASCII range (structural, so
the kernel can evaluate it; the embedded code only compares such values
for equality). -/
def jsToLowerCase (s : String) : String :=
  ⟨s.data.map Char.toLower⟩

/-- JS `String.prototype.trim`: strip whitespace from both ends. -/
def jsTrim (s : String) : String :=
  ⟨((s.data.dropWhile Char.isWhitespace).reverse.dropWhile Char.isWhitespace).reverse⟩

/-- JS `x?.trim() || null`: a missing field stays null, and a string whose
trim is empty (falsy) collapses to null. -/
def optTrim : Option String → Option String
  | none => none
  | some s => if jsTrim s == "" then none else some (jsTrim s)

/-- JS `x || null` on an optional string field. -/
def optOrNull (x : Option String) : Option String :=
  if truthyStr x then x else none

/-- JS `d <= now` where `d` came from `new Date(...)`: an Invalid Date
compares as NaN, so the comparison is false whatever `now` is. -/
def jsDateLe (d : Option Int) (now : Int) : Bool :=
  match d with
  | none => false
  | some t => t ≤ now

/-- Characters the email regex `/^[^\s@]+@[^\s@]+\.[^\s@]+$/` allows inside
a run: anything that is not whitespace and not `@`. -/
def emailRunOk (cs : List Char) : Bool :=
  cs.all (fun c => !(c == '@') && !c.isWhitespace)

/-- The email regex `/^[^\s@]+@[^\s@]+\.[^\s@]+$/` from both
`registerMember` and src/api/join.js: exactly one `@`, no whitespace, a
non-empty local part, and after the `@` a `.` with at least one character
on each side. -/
def emailRegexTest (s : String) : Bool :=
  let cs := s.toList
  let l := cs.takeWhile (fun c => !(c == '@'))
  let r := (cs.dropWhile (fun c => !(c == '@'))).drop 1
  (cs.count '@' == 1) && !l.isEmpty && emailRunOk l && emailRunOk r &&
    ((r.drop 1).dropLast.contains '.')

/-- A document of the `members` collection.  Every field except the id is
optional because the raw-insert handler (src/unnamed/part_000) stores
whatever the client sent, and src/api/join.js stores no `joinedAt` or
`updatedAt`. -/
structure MemberDoc where
  id : Nat
  name : Option String
  email : Option String
  department : Option String
  year : Option String
  interests : Option String
  joinedAt : Option Int
  createdAt : Option Int
  updatedAt : Option Int
deriving DecidableEq

/-- A document of the `events` collection; only `addEvent` creates these,
so the server-set fields are always present.  `eventDate` is a parsed JS
date and may be the Invalid Date (`none`). -/
structure EventDoc where
  id : Nat
  title : String
  description : Option String
  eventDate : Option Int
  location : Option String
  createdAt : Int
  updatedAt : Int
deriving DecidableEq

/-- A document of the `blogs` collection; only `addBlog` creates these.
The `author*` fields are copied from the author's member document, whose
fields are optional, hence the `Option`s. -/
structure BlogDoc where
  id : Nat
  title : String
  content : String
  authorId : Nat
  authorName : Option String
  authorEmail : Option String
  authorDepartment : Option String
  createdAt : Int
  updatedAt : Int
deriving DecidableEq

/-- The whole document store: the three collections plus the id counter
standing in for MongoDB's `_id` generation. -/
structure DB where
  members : List MemberDoc
  events : List EventDoc
  blogs : List BlogDoc
  nextId : Nat
deriving DecidableEq

/-- A client body as destructured by the member operations and as stored
verbatim by src/unnamed/part_000 (which keeps any timestamp fields the
client happened to send). -/
structure MemberInput where
  name : Option String
  email : Option String
  department : Option String
  year : Option String
  interests : Option String
  joinedAt : Option Int
  createdAt : Option Int
  updatedAt : Option Int
deriving DecidableEq

/-- A client body as destructured by the event operations.  The
`eventDate` field is `none` when the raw value is falsy (missing or `""`),
and `some d` when truthy, where `d : Option Int` is what `new Date(raw)`
parses it to (`none` = Invalid Date). -/
structure EventInput where
  title : Option String
  description : Option String
  eventDate : Option (Option Int)
  location : Option String
deriving DecidableEq

/-- A client body as destructured by `addBlog` / `updateBlog`. -/
structure BlogInput where
  title : Option String
  content : Option String
  authorId : Option Nat
deriving DecidableEq

/-- `deleteOne`: remove the first element matching the filter. -/
def deleteFirst (p : α → Bool) : List α → List α
  | [] => []
  | x :: xs => if p x then xs else x :: deleteFirst p xs

/-- `findOneAndUpdate`: replace the first element matching the filter. -/
def updateFirst (p : α → Bool) (f : α → α) : List α → List α
  | [] => []
  | x :: xs => if p x then f x :: xs else x :: updateFirst p f xs

-- ====================================================
-- MEMBER OPERATIONS (DatabaseService, src/unnamed/part_001)
-- ====================================================

/-- `DatabaseService.registerMember` (src/unnamed/part_001 lines 65-113),
mongodb branch.  Note that the duplicate-email `findOne({ email })` uses
the raw submitted email while the stored document holds
`email.toLowerCase().trim()`. -/
def registerMember (db : DB) (input : MemberInput) (now : Int) :
    Except String MemberDoc × DB :=
  match input.name, input.email with
  | some name, some email =>
    if name == "" || email == "" then
      (.error "Name and email are required", db)
    else if !emailRegexTest email then
      (.error "Invalid email format", db)
    else if (db.members.find? (fun m => m.email == some email)).isSome then
      (.error "Email already registered", db)
    else
      let member : MemberDoc :=
        { id := db.nextId
          name := some (jsTrim name)
          email := some (jsTrim (jsToLowerCase email))
          department := optTrim input.department
          year := optOrNull input.year
          interests := optTrim input.interests
          joinedAt := some now
          createdAt := some now
          updatedAt := some now }
      (.ok member,
        { db with members := db.members ++ [member], nextId := db.nextId + 1 })
  | _, _ => (.error "Name and email are required", db)

/-- The `updateFields` object of `DatabaseService.updateMember`
(src/unnamed/part_001 lines 170-177) applied to the matched document:
spread a field only when the incoming value is truthy, always refresh
`updatedAt`. -/
def applyMemberUpdate (m : MemberDoc) (input : MemberInput) (now : Int) :
    MemberDoc :=
  { m with
    name := if truthyStr input.name then some (jsTrim (input.name.getD "")) else m.name
    email := if truthyStr input.email then some (jsTrim (jsToLowerCase (input.email.getD ""))) else m.email
    department := if truthyStr input.department then some (jsTrim (input.department.getD "")) else m.department
    year := if truthyStr input.year then input.year else m.year
    interests := if truthyStr input.interests then some (jsTrim (input.interests.getD "")) else m.interests
    updatedAt := some now }

/-- The guard of `DatabaseService.updateMember` (src/unnamed/part_001
lines 160-168): when a truthy email is supplied, is its lowercased trim
already held by a member other than `memberId`? -/
def emailTakenByOther (db : DB) (memberId : Nat) (input : MemberInput) : Bool :=
  truthyStr input.email &&
    (db.members.find? (fun m =>
      m.email == some (jsTrim (jsToLowerCase (input.email.getD ""))) && !(m.id == memberId))).isSome

/-- `DatabaseService.updateMember` (src/unnamed/part_001 lines 152-202),
mongodb branch. -/
def updateMember (db : DB) (memberId : Nat) (input : MemberInput) (now : Int) :
    Except String MemberDoc × DB :=
  if emailTakenByOther db memberId input then
    (.error "Email already taken by another member", db)
  else
    match db.members.find? (fun m => m.id == memberId) with
    | none => (.error "Member not found", db)
    | some m =>
      let m' := applyMemberUpdate m input now
      (.ok m',
        { db with members := updateFirst (fun x => x.id == memberId) (fun _ => m') db.members })

/-- `DatabaseService.deleteMember` (src/unnamed/part_001 lines 204-227),
mongodb branch: `deleteOne` the member, throw when nothing was deleted
(before any blog is touched), then `deleteMany` the blogs whose `authorId`
matches. -/
def deleteMember (db : DB) (memberId : Nat) : Except String String × DB :=
  if (db.members.find? (fun m => m.id == memberId)).isNone then
    (.error "Member not found", db)
  else
    (.ok "Member deleted successfully",
      { db with
        members := deleteFirst (fun m => m.id == memberId) db.members
        blogs := db.blogs.filter (fun b => !(b.authorId == memberId)) })

-- ====================================================
-- EVENT OPERATIONS (DatabaseService, src/unnamed/part_001)
-- ====================================================

/-- `DatabaseService.addEvent` (src/unnamed/part_001 lines 233-271),
mongodb branch.  The future check is `eventDateObj <= new Date()`, which is
false for an Invalid Date, so an unparseable truthy `eventDate` is
accepted and stored as-is. -/
def addEvent (db : DB) (input : EventInput) (now : Int) :
    Except String EventDoc × DB :=
  match input.title, input.eventDate with
  | some title, some d =>
    if title == "" then
      (.error "Title and event date are required", db)
    else if jsDateLe d now then
      (.error "Event date must be in the future", db)
    else
      let event : EventDoc :=
        { id := db.nextId
          title := jsTrim title
          description := optTrim input.description
          eventDate := d
          location := optTrim input.location
          createdAt := now
          updatedAt := now }
      (.ok event,
        { db with events := db.events ++ [event], nextId := db.nextId + 1 })
  | _, _ => (.error "Title and event date are required", db)

/-- The `updateFields` object of `DatabaseService.updateEvent`
(src/unnamed/part_001 lines 319-325) applied to the matched document. -/
def applyEventUpdate (e : EventDoc) (input : EventInput) (now : Int) :
    EventDoc :=
  { e with
    title := if truthyStr input.title then jsTrim (input.title.getD "") else e.title
    description := if truthyStr input.description then some (jsTrim (input.description.getD "")) else e.description
    eventDate := match input.eventDate with
      | some d => d
      | none => e.eventDate
    location := if truthyStr input.location then some (jsTrim (input.location.getD "")) else e.location
    updatedAt := now }

/-- `DatabaseService.updateEvent` (src/unnamed/part_001 lines 312-350),
mongodb branch: no date validation of any kind, only existence of the
event. -/
def updateEvent (db : DB) (eventId : Nat) (input : EventInput) (now : Int) :
    Except String EventDoc × DB :=
  match db.events.find? (fun e => e.id == eventId) with
  | none => (.error "Event not found", db)
  | some e =>
    let e' := applyEventUpdate e input now
    (.ok e',
      { db with events := updateFirst (fun x => x.id == eventId) (fun _ => e') db.events })

/-- `DatabaseService.deleteEvent` (src/unnamed/part_001 lines 352-372),
mongodb branch. -/
def deleteEvent (db : DB) (eventId : Nat) : Except String String × DB :=
  if (db.events.find? (fun e => e.id == eventId)).isNone then
    (.error "Event not found", db)
  else
    (.ok "Event deleted successfully",
      { db with events := deleteFirst (fun e => e.id == eventId) db.events })

-- ====================================================
-- BLOG OPERATIONS (DatabaseService, src/unnamed/part_001)
-- ====================================================

/-- `DatabaseService.addBlog` (src/unnamed/part_001 lines 378-420),
mongodb branch: look the author up, throw when absent, otherwise store a
denormalized snapshot of the author's name / email / department. -/
def addBlog (db : DB) (input : BlogInput) (now : Int) :
    Except String BlogDoc × DB :=
  match input.title, input.content, input.authorId with
  | some title, some content, some authorId =>
    if title == "" || content == "" then
      (.error "Title, content, and author ID are required", db)
    else
      match db.members.find? (fun m => m.id == authorId) with
      | none => (.error "Author not found", db)
      | some author =>
        let blog : BlogDoc :=
          { id := db.nextId
            title := jsTrim title
            content := jsTrim content
            authorId := authorId
            authorName := author.name
            authorEmail := author.email
            authorDepartment := author.department
            createdAt := now
            updatedAt := now }
        (.ok blog,
          { db with blogs := db.blogs ++ [blog], nextId := db.nextId + 1 })
  | _, _, _ => (.error "Title, content, and author ID are required", db)

/-- `DatabaseService.updateBlog` (src/unnamed/part_001 lines 480-516),
mongodb branch. -/
def updateBlog (db : DB) (blogId : Nat) (input : BlogInput) (now : Int) :
    Except String BlogDoc × DB :=
  match db.blogs.find? (fun b => b.id == blogId) with
  | none => (.error "Blog not found", db)
  | some b =>
    let b' := { b with
      title := if truthyStr input.title then jsTrim (input.title.getD "") else b.title
      content := if truthyStr input.content then jsTrim (input.content.getD "") else b.content
      updatedAt := now }
    (.ok b',
      { db with blogs := updateFirst (fun x => x.id == blogId) (fun _ => b') db.blogs })

/-- `DatabaseService.deleteBlog` (src/unnamed/part_001 lines 518-538),
mongodb branch. -/
def deleteBlog (db : DB) (blogId : Nat) : Except String String × DB :=
  if (db.blogs.find? (fun b => b.id == blogId)).isNone then
    (.error "Blog not found", db)
  else
    (.ok "Blog deleted successfully",
      { db with blogs := deleteFirst (fun b => b.id == blogId) db.blogs })

-- ====================================================
-- RECENT ACTIVITY (DatabaseService.getRecentActivity)
-- ====================================================

/-- Stable-structural insertion step for `sortBy`. -/
def insertBy (le : α → α → Bool) (a : α) : List α → List α
  | [] => [a]
  | x :: xs => if le a x then a :: x :: xs else x :: insertBy le a xs

/-- Insertion sort by a boolean "comes before or with" relation; stands in
for both the MongoDB `.sort(...)` cursors and the JS `Array.prototype.sort`
call in `getRecentActivity` (tie order in both is unspecified, and no
claim here depends on it). -/
def sortBy (le : α → α → Bool) : List α → List α
  | [] => []
  | x :: xs => insertBy le x (sortBy le xs)

/-- Descending order on optional dates as MongoDB's `.sort({ field: -1 })`
ranks them: a missing value sorts after every present one. -/
def optDateGe (a b : Option Int) : Bool :=
  match a, b with
  | none, none => true
  | none, some _ => false
  | some _, none => true
  | some x, some y => y ≤ x

/-- An entry of the merged activity feed. -/
structure Activity where
  activityType : String
  description : String
  activityDate : Option Int
deriving DecidableEq

/-- JS string interpolation of a possibly-undefined value. -/
def jsShow : Option String → String
  | none => "undefined"
  | some s => s

/-- The comparator `(a, b) => b.activityDate - a.activityDate` of
`getRecentActivity`: descending on valid dates; when either date is
missing the subtraction is NaN, which `Array.prototype.sort` treats as 0
(leave the pair where it is), modelled as "may stay". -/
def actGe (a b : Activity) : Bool :=
  match a.activityDate, b.activityDate with
  | some x, some y => y ≤ x
  | _, _ => true

/-- The five most recent member sign-ups, mapped to activity entries
(src/unnamed/part_001 lines 590-613). -/
def recentMemberActivities (db : DB) : List Activity :=
  ((sortBy (fun m1 m2 => optDateGe m1.joinedAt m2.joinedAt) db.members).take 5).map
    (fun m =>
      { activityType := "member_joined"
        description := jsShow m.name ++ " joined the club"
        activityDate := m.joinedAt })

/-- The five most recent blogs, mapped to activity entries
(src/unnamed/part_001 lines 596-618). -/
def recentBlogActivities (db : DB) : List Activity :=
  ((sortBy (fun b1 b2 => optDateGe (some b1.createdAt) (some b2.createdAt)) db.blogs).take 5).map
    (fun b =>
      { activityType := "blog_published"
        description := "New blog: " ++ b.title
        activityDate := some b.createdAt })

/-- The five most recent events, mapped to activity entries
(src/unnamed/part_001 lines 602-623). -/
def recentEventActivities (db : DB) : List Activity :=
  ((sortBy (fun e1 e2 => optDateGe (some e1.createdAt) (some e2.createdAt)) db.events).take 5).map
    (fun e =>
      { activityType := "event_created"
        description := "Event scheduled: " ++ e.title
        activityDate := some e.createdAt })

/-- The `activities` array of `getRecentActivity` before the final sort
(src/unnamed/part_001 lines 608-624). -/
def allRecentActivities (db : DB) : List Activity :=
  recentMemberActivities db ++ recentBlogActivities db ++ recentEventActivities db

/-- `DatabaseService.getRecentActivity` (src/unnamed/part_001 lines
586-638), mongodb branch: merge the three per-kind top-5 lists, sort by
activity date descending, and `slice(0, limit)`. -/
def getRecentActivity (db : DB) (limit : Nat) : List Activity :=
  (sortBy actGe (allRecentActivities db)).take limit

-- ====================================================
-- CONNECTION CACHE (connectToMongoDB / connectToDatabase)
-- ====================================================

/-- The module-level `cached = global._mongo = { conn: null, promise: null }`
object shared by the callers of one process. -/
structure MongoCache where
  conn : Option Nat
  promise : Option Nat
deriving DecidableEq

/-- Process state for the connection cache: the cache object plus a count
of `new MongoClient(...)` constructions, so that "at most one client" is
observable. Handles are numbered by creation. -/
structure ConnState where
  cache : MongoCache
  clientsCreated : Nat
deriving DecidableEq

/-- The process state before any call: `{ conn: null, promise: null }` and
no client constructed. -/
def initialConnState : ConnState :=
  { cache := { conn := none, promise := none }, clientsCreated := 0 }

/-- `connectToMongoDB` (src/unnamed/part_001 lines 17-31) under sequential
calls: return the cached handle if present; otherwise construct a client
and store its promise unless one is pending, then await the promise and
cache the handle.  Awaiting is modelled as immediate (sequential calls),
and the handle a promise resolves to is the promise's value. -/
def connectToMongoDB (s : ConnState) : Nat × ConnState :=
  match s.cache.conn with
  | some h => (h, s)
  | none =>
    match s.cache.promise with
    | some p => (p, { s with cache := { conn := some p, promise := some p } })
    | none =>
      let h := s.clientsCreated
      (h, { cache := { conn := some h, promise := some h }
            clientsCreated := s.clientsCreated + 1 })

/-- `connectToDatabase` (src/api/join.js lines 8-18): the identical
get-or-create logic over the same-shaped module cache, differing only in
the client options it passes, which the model does not observe. -/
def connectToDatabase (s : ConnState) : Nat × ConnState :=
  connectToMongoDB s

/-- The handles returned by `n` sequential calls to `connectToMongoDB`
starting from `s`, together with the final state. -/
def connectSeq : Nat → ConnState → List Nat × ConnState
  | 0, s => ([], s)
  | n + 1, s =>
    let (h, s') := connectToMongoDB s
    let (hs, s'') := connectSeq n s'
    (h :: hs, s'')

-- ====================================================
-- STANDALONE HANDLERS (src/api/join.js, src/unnamed/part_000)
-- ====================================================

/-- Status code plus resulting store of one of the two standalone member
handlers. -/
structure HandlerResult where
  status : Nat
  db : DB
deriving DecidableEq

/-- A `MemberInput` with every field absent; what destructuring
`body || {}` yields when the body is missing. -/
def emptyMemberInput : MemberInput :=
  { name := none, email := none, department := none, year := none
    interests := none, joinedAt := none, createdAt := none, updatedAt := none }

/-- The handler of src/api/join.js: OPTIONS short-circuits with 200,
non-POST gets 405, missing name/email 400, bad email 400; otherwise the
document is stored with the email exactly as submitted (no lowercasing, no
duplicate check), `department`/`year`/`interests` defaulted to null when
falsy, a server `createdAt`, and no `joinedAt` or `updatedAt`. -/
def joinHandler (method : String) (body : Option MemberInput) (db : DB)
    (now : Int) : HandlerResult :=
  if method == "OPTIONS" then { status := 200, db := db }
  else if !(method == "POST") then { status := 405, db := db }
  else
    match (body.getD emptyMemberInput).name,
        (body.getD emptyMemberInput).email with
    | some name, some email =>
      if name == "" || email == "" then { status := 400, db := db }
      else if !emailRegexTest email then { status := 400, db := db }
      else
        let doc : MemberDoc :=
          { id := db.nextId
            name := some name
            email := some email
            department := optOrNull (body.getD emptyMemberInput).department
            year := optOrNull (body.getD emptyMemberInput).year
            interests := optOrNull (body.getD emptyMemberInput).interests
            joinedAt := none
            createdAt := some now
            updatedAt := none }
        { status := 200
          db := { db with members := db.members ++ [doc], nextId := db.nextId + 1 } }
    | _, _ => { status := 400, db := db }

/-- The handler of src/unnamed/part_000: non-POST gets 405; otherwise
`insertOne(req.body)` stores the client body verbatim — no validation, no
lowercasing, no duplicate check, and no server timestamps of any kind. -/
def part000Handler (method : String) (body : MemberInput) (db : DB) :
    HandlerResult :=
  if !(method == "POST") then { status := 405, db := db }
  else
    let doc : MemberDoc :=
      { id := db.nextId
        name := body.name
        email := body.email
        department := body.department
        year := body.year
        interests := body.interests
        joinedAt := body.joinedAt
        createdAt := body.createdAt
        updatedAt := body.updatedAt }
    { status := 200
      db := { db with members := db.members ++ [doc], nextId := db.nextId + 1 } }

-- ====================================================
-- REQUEST ROUTER (src/unnamed/part_001, default export handler)
-- ====================================================

/-- The parsed request body seen by the router; each endpoint destructures
the fields it cares about, so the projections below are that
destructuring. -/
structure Body where
  name : Option String
  email : Option String
  department : Option String
  year : Option String
  interests : Option String
  title : Option String
  description : Option String
  eventDate : Option (Option Int)
  location : Option String
  content : Option String
  authorId : Option Nat
deriving DecidableEq

/-- Destructuring of the body by the member operations. -/
def Body.toMemberInput (b : Body) : MemberInput :=
  { name := b.name, email := b.email, department := b.department
    year := b.year, interests := b.interests
    joinedAt := none, createdAt := none, updatedAt := none }

/-- Destructuring of the body by the event operations. -/
def Body.toEventInput (b : Body) : EventInput :=
  { title := b.title, description := b.description
    eventDate := b.eventDate, location := b.location }

/-- Destructuring of the body by the blog operations. -/
def Body.toBlogInput (b : Body) : BlogInput :=
  { title := b.title, content := b.content, authorId := b.authorId }

/-- The query parameters the router reads for dispatch: `action`, `id`
(`none` models an absent or falsy id) and `author` for the blog listing.
`limit`, `skip` and `upcoming` only shape GET payloads, which this model
does not observe. -/
structure Query where
  action : Option String
  id : Option Nat
  author : Option Nat
deriving DecidableEq

/-- A body with every field absent. -/
def emptyBody : Body :=
  { name := none, email := none, department := none, year := none
    interests := none, title := none, description := none, eventDate := none
    location := none, content := none, authorId := none }

/-- What the router sent back: the status code, the error message of a
4xx/500 response, the `DatabaseService` operation that was dispatched to
(if any), and the resulting store. -/
structure RouterResult where
  status : Nat
  error : Option String
  op : Option String
  db : DB
deriving DecidableEq

/-- Wrap a mutating service call the way the router's `try`/`catch` does:
a thrown error becomes a 500 carrying `error.message`, success the given
status. -/
def routeCall (okStatus : Nat) (opName : String) (db : DB)
    (r : Except String α × DB) : RouterResult :=
  match r.1 with
  | .ok _ => { status := okStatus, error := none, op := some opName, db := r.2 }
  | .error e => { status := 500, error := some e, op := some opName, db := db }

/-- A pure GET endpoint: 200, store untouched. -/
def routeGet (opName : String) (db : DB) : RouterResult :=
  { status := 200, error := none, op := some opName, db := db }

/-- The ID-required guard of the PUT/DELETE branches: `if (!id) throw`,
which the catch turns into a 500. -/
def routeIdRequired (msg : String) (db : DB)
    (k : Nat → RouterResult) : Option Nat → RouterResult
  | none => { status := 500, error := some msg, op := none, db := db }
  | some i => k i

/-- The default export handler of src/unnamed/part_001 (lines 712-867):
CORS preflight first (OPTIONS gets 200 before any routing), then a switch
on the `action` query parameter, each case switching on the HTTP method,
with 405 for a method the case does not handle and 400 `Invalid action`
for an unknown action.  Errors thrown by the service surface as 500 with
the error message.  Response payloads of GET endpoints are not modelled,
only their status and that they leave the store unchanged. -/
def routerHandler (db : DB) (method : String) (q : Query) (body : Body)
    (now : Int) : RouterResult :=
  if method == "OPTIONS" then
    { status := 200, error := none, op := none, db := db }
  else
    match q.action with
    | some "members" =>
      if method == "GET" then
        routeGet (if q.id.isSome then "getMemberById" else "getMembers") db
      else if method == "POST" then
        routeCall 201 "registerMember" db (registerMember db body.toMemberInput now)
      else if method == "PUT" then
        routeIdRequired "Member ID required" db
          (fun i => routeCall 200 "updateMember" db (updateMember db i body.toMemberInput now)) q.id
      else if method == "DELETE" then
        routeIdRequired "Member ID required" db
          (fun i => routeCall 200 "deleteMember" db (deleteMember db i)) q.id
      else
        { status := 405, error := some "Method not allowed", op := none, db := db }
    | some "events" =>
      if method == "GET" then
        routeGet (if q.id.isSome then "getEventById" else "getEvents") db
      else if method == "POST" then
        routeCall 201 "addEvent" db (addEvent db body.toEventInput now)
      else if method == "PUT" then
        routeIdRequired "Event ID required" db
          (fun i => routeCall 200 "updateEvent" db (updateEvent db i body.toEventInput now)) q.id
      else if method == "DELETE" then
        routeIdRequired "Event ID required" db
          (fun i => routeCall 200 "deleteEvent" db (deleteEvent db i)) q.id
      else
        { status := 405, error := some "Method not allowed", op := none, db := db }
    | some "blogs" =>
      if method == "GET" then
        routeGet
          (if q.id.isSome then "getBlogById"
           else if q.author.isSome then "getBlogsByAuthor" else "getBlogs") db
      else if method == "POST" then
        routeCall 201 "addBlog" db (addBlog db body.toBlogInput now)
      else if method == "PUT" then
        routeIdRequired "Blog ID required" db
          (fun i => routeCall 200 "updateBlog" db (updateBlog db i body.toBlogInput now)) q.id
      else if method == "DELETE" then
        routeIdRequired "Blog ID required" db
          (fun i => routeCall 200 "deleteBlog" db (deleteBlog db i)) q.id
      else
        { status := 405, error := some "Method not allowed", op := none, db := db }
    | some "dashboard" =>
      if method == "GET" then routeGet "getDashboardStats" db
      else { status := 405, error := some "Method not allowed", op := none, db := db }
    | some "activity" =>
      if method == "GET" then routeGet "getRecentActivity" db
      else { status := 405, error := some "Method not allowed", op := none, db := db }
    | some "stats" =>
      if method == "GET" then routeGet "getMemberStats" db
      else { status := 405, error := some "Method not allowed", op := none, db := db }
    | _ =>
      { status := 400, error := some "Invalid action", op := none, db := db }

-- ====================================================
-- HELPER LEMMAS (list machinery shared by the claims)
-- ====================================================

theorem mem_of_mem_deleteFirst {α : Type} (p : α → Bool) (l : List α) (x : α)
    (hx : x ∈ deleteFirst p l) : x ∈ l := by
  induction l with
  | nil => simp [deleteFirst] at hx
  | cons y ys ih =>
    by_cases hp : p y = true
    · simp only [deleteFirst, if_pos hp] at hx
      exact List.mem_cons_of_mem y hx
    · simp only [deleteFirst, if_neg hp, List.mem_cons] at hx
      rcases hx with h | h
      · simp [h]
      · exact List.mem_cons_of_mem y (ih h)

theorem mem_deleteFirst_of_mem {α : Type} (p : α → Bool) (l : List α) (x : α)
    (hx : x ∈ l) (hpx : p x = false) : x ∈ deleteFirst p l := by
  induction l with
  | nil => cases hx
  | cons y ys ih =>
    rcases List.mem_cons.mp hx with rfl | h
    · have hp : ¬ p x = true := by simp [hpx]
      simp [deleteFirst, if_neg hp]
    · by_cases hp : p y = true
      · simpa [deleteFirst, if_pos hp] using h
      · simp only [deleteFirst, if_neg hp, List.mem_cons]
        exact Or.inr (ih h)

theorem length_deleteFirst {α : Type} (p : α → Bool) (l : List α)
    (h : (l.find? p).isSome) : (deleteFirst p l).length + 1 = l.length := by
  induction l with
  | nil => simp [List.find?] at h
  | cons y ys ih =>
    by_cases hp : p y = true
    · simp [deleteFirst, if_pos hp]
    · have h' : (ys.find? p).isSome := by
        have hfc : List.find? p (y :: ys) = List.find? p ys := by
          simp [List.find?_cons, hp]
        rw [hfc] at h
        exact h
      have := ih h'
      simp only [deleteFirst, if_neg hp, List.length_cons]
      omega

theorem mem_updateFirst_of_not {α : Type} (p : α → Bool) (f : α → α)
    (l : List α) (x : α) (hx : x ∈ l) (hpx : p x = false) :
    x ∈ updateFirst p f l := by
  induction l with
  | nil => cases hx
  | cons y ys ih =>
    rcases List.mem_cons.mp hx with rfl | h
    · have hp : ¬ p x = true := by simp [hpx]
      simp [updateFirst, if_neg hp]
    · by_cases hp : p y = true
      · simp only [updateFirst, if_pos hp, List.mem_cons]
        exact Or.inr h
      · simp only [updateFirst, if_neg hp, List.mem_cons]
        exact Or.inr (ih h)

theorem length_insertBy {α : Type} (le : α → α → Bool) (a : α) (l : List α) :
    (insertBy le a l).length = l.length + 1 := by
  induction l with
  | nil => rfl
  | cons x xs ih =>
    by_cases h : le a x = true <;> simp [insertBy, h, ih]

theorem mem_insertBy {α : Type} (le : α → α → Bool) (a x : α) (l : List α) :
    x ∈ insertBy le a l ↔ x = a ∨ x ∈ l := by
  induction l with
  | nil => simp [insertBy]
  | cons y ys ih =>
    by_cases h : le a y = true
    · simp [insertBy, h, List.mem_cons]
    · simp only [insertBy, if_neg h, List.mem_cons, ih]
      tauto

theorem length_sortBy {α : Type} (le : α → α → Bool) (l : List α) :
    (sortBy le l).length = l.length := by
  induction l with
  | nil => rfl
  | cons x xs ih => simp [sortBy, length_insertBy, ih]

theorem mem_sortBy {α : Type} (le : α → α → Bool) (x : α) (l : List α) :
    x ∈ sortBy le l ↔ x ∈ l := by
  induction l with
  | nil => simp [sortBy]
  | cons y ys ih => simp [sortBy, mem_insertBy, ih]

theorem pairwise_insertBy {α : Type} (le : α → α → Bool) (S : α → Prop)
    (htrans : ∀ a b c, S a → S b → S c → le a b = true → le b c = true →
      le a c = true)
    (htotal : ∀ a b, S a → S b → le a b = true ∨ le b a = true)
    (a : α) (l : List α) (ha : S a) (hl : ∀ x ∈ l, S x)
    (h : l.Pairwise (fun x y => le x y = true)) :
    (insertBy le a l).Pairwise (fun x y => le x y = true) := by
  induction l with
  | nil => simp [insertBy]
  | cons y ys ih =>
    have hy : S y := hl y (by simp)
    have hys : ∀ x ∈ ys, S x := fun x hx => hl x (by simp [hx])
    rcases List.pairwise_cons.mp h with ⟨hyz, hpys⟩
    by_cases hle : le a y = true
    · simp only [insertBy, if_pos hle]
      refine List.Pairwise.cons ?_ h
      intro z hz
      rcases List.mem_cons.mp hz with rfl | hz
      · exact hle
      · exact htrans a y z ha hy (hys z hz) hle (hyz z hz)
    · have hya : le y a = true := by
        rcases htotal a y ha hy with h' | h'
        · exact absurd h' hle
        · exact h'
      simp only [insertBy, if_neg hle]
      refine List.Pairwise.cons ?_ (ih hys hpys)
      intro z hz
      rcases (mem_insertBy le a z ys).mp hz with rfl | hz
      · exact hya
      · exact hyz z hz

theorem pairwise_sortBy {α : Type} (le : α → α → Bool) (S : α → Prop)
    (htrans : ∀ a b c, S a → S b → S c → le a b = true → le b c = true →
      le a c = true)
    (htotal : ∀ a b, S a → S b → le a b = true ∨ le b a = true)
    (l : List α) (hl : ∀ x ∈ l, S x) :
    (sortBy le l).Pairwise (fun x y => le x y = true) := by
  induction l with
  | nil => simp [sortBy]
  | cons x xs ih =>
    exact pairwise_insertBy le S htrans htotal x (sortBy le xs)
      (hl x (by simp))
      (fun z hz => hl z (List.mem_cons_of_mem x ((mem_sortBy le z xs).mp hz)))
      (ih (fun z hz => hl z (by simp [hz])))

/-- One step of the connection cache from a state that already holds a
handle is the identity. -/
theorem connectToMongoDB_fixed (s : ConnState) (h : Nat)
    (hc : s.cache.conn = some h) : connectToMongoDB s = (h, s) := by
  unfold connectToMongoDB
  rw [hc]

/-- Iterating the connection cache from a state that already holds a
handle returns that handle every time and never changes the state. -/
theorem connectSeq_fixed (n : Nat) (s : ConnState) (h : Nat)
    (hc : s.cache.conn = some h) :
    connectSeq n s = (List.replicate n h, s) := by
  induction n with
  | zero => simp [connectSeq]
  | succ k ih =>
    simp [connectSeq, connectToMongoDB_fixed s h hc, ih, List.replicate]

-- ====================================================
-- CONCRETE FIXTURES (shared by witnesses and counterexamples)
-- ====================================================

/-- The empty store. -/
def db0 : DB := { members := [], events := [], blogs := [], nextId := 0 }

/-- A registered member on id 1. -/
def memberAda : MemberDoc :=
  { id := 1, name := some "Ada", email := some "ada@club.org"
    department := some "CS", year := some "2", interests := none
    joinedAt := some 10, createdAt := some 10, updatedAt := some 10 }

/-- A second member on id 5, author of no blog. -/
def memberBo : MemberDoc :=
  { id := 5, name := some "Bo", email := some "bo@club.org"
    department := none, year := none, interests := none
    joinedAt := some 12, createdAt := some 12, updatedAt := some 12 }

/-- A blog authored by member 1. -/
def blogByAda : BlogDoc :=
  { id := 2, title := "Hi", content := "Text", authorId := 1
    authorName := some "Ada", authorEmail := some "ada@club.org"
    authorDepartment := some "CS", createdAt := 20, updatedAt := 20 }

/-- An event on id 3. -/
def eventTea : EventDoc :=
  { id := 3, title := "Tea", description := none, eventDate := some 100
    location := none, createdAt := 30, updatedAt := 30 }

/-- A populated store. -/
def db1 : DB :=
  { members := [memberAda, memberBo], events := [eventTea]
    blogs := [blogByAda], nextId := 6 }

-- ====================================================
-- CLAIM THEOREMS
-- ====================================================

/-- C2: when a member with `memberId` exists, `deleteMember` returns the
success message, removes exactly that member (every other member survives,
the count drops by one, nothing is added), removes exactly the blogs whose
`authorId` equals `memberId`, and leaves events alone; when no such member
exists it throws `Member not found` and the store — the blogs collection
in particular — is unchanged. -/
theorem deleteMember_correct (db : DB) (mid : Nat) :
    ((∃ m ∈ db.members, m.id = mid) →
      (deleteMember db mid).1 = .ok "Member deleted successfully" ∧
      (∀ b : BlogDoc, b ∈ (deleteMember db mid).2.blogs ↔
        b ∈ db.blogs ∧ b.authorId ≠ mid) ∧
      (∀ m ∈ db.members, m.id ≠ mid → m ∈ (deleteMember db mid).2.members) ∧
      (∀ m ∈ (deleteMember db mid).2.members, m ∈ db.members) ∧
      (deleteMember db mid).2.members.length + 1 = db.members.length ∧
      (deleteMember db mid).2.events = db.events) ∧
    ((¬ ∃ m ∈ db.members, m.id = mid) →
      deleteMember db mid = (.error "Member not found", db)) := by
  constructor
  · intro hex
    have hfind : (db.members.find? (fun m => m.id == mid)).isSome := by
      rw [List.find?_isSome]
      rcases hex with ⟨m, hm, hid⟩
      exact ⟨m, hm, by simp [hid]⟩
    obtain ⟨v, hv⟩ := Option.isSome_iff_exists.mp hfind
    have hdel : deleteMember db mid =
        (.ok "Member deleted successfully",
          { db with
            members := deleteFirst (fun m => m.id == mid) db.members
            blogs := db.blogs.filter (fun b => !(b.authorId == mid)) }) := by
      unfold deleteMember
      rw [hv]
      rfl
    refine ⟨by rw [hdel], ?_, ?_, ?_, ?_, by rw [hdel]⟩
    · intro b
      rw [hdel]
      simp [List.mem_filter]
    · intro m hm hne
      rw [hdel]
      exact mem_deleteFirst_of_mem _ _ _ hm (by simp [hne])
    · intro m hm
      rw [hdel] at hm
      exact mem_of_mem_deleteFirst _ _ _ hm
    · rw [hdel]
      exact length_deleteFirst _ _ hfind
  · intro hnone
    have hfind : db.members.find? (fun m => m.id == mid) = none := by
      rw [List.find?_eq_none]
      intro m hm
      simp only [beq_iff_eq]
      exact fun hid => hnone ⟨m, hm, hid⟩
    unfold deleteMember
    rw [hfind]
    rfl

/-- C2 witness: on the populated store, deleting member 1 succeeds with
the success message, and deleting the absent id 99 throws `Member not
found` leaving the store untouched. -/
theorem deleteMember_correct_witness :
    (deleteMember db1 1).1 = .ok "Member deleted successfully" ∧
    deleteMember db1 99 = (.error "Member not found", db1) :=
  ⟨((deleteMember_correct db1 1).1 (by decide)).1,
   (deleteMember_correct db1 99).2 (by decide)⟩

/-- C6: every blog `addBlog` stores is a denormalized snapshot: its
`authorName` / `authorEmail` / `authorDepartment` equal the corresponding
fields of the member found under the stored `authorId` at creation time,
the `authorId` is the one supplied, and the blog is appended without
touching the members; and with title, content and author id supplied but
no member under that id, `addBlog` throws `Author not found` and changes
nothing. -/
theorem addBlog_correct (db : DB) (input : BlogInput) (now : Int) :
    (∀ b db', addBlog db input now = (.ok b, db') →
      ∃ author, db.members.find? (fun m => m.id == b.authorId) = some author ∧
        input.authorId = some b.authorId ∧
        b.authorName = author.name ∧
        b.authorEmail = author.email ∧
        b.authorDepartment = author.department ∧
        b.createdAt = now ∧ b.updatedAt = now ∧
        db'.blogs = db.blogs ++ [b] ∧ db'.members = db.members) ∧
    (∀ t c aid, input.title = some t → t ≠ "" → input.content = some c →
      c ≠ "" → input.authorId = some aid →
      db.members.find? (fun m => m.id == aid) = none →
      addBlog db input now = (.error "Author not found", db)) := by
  rcases input with ⟨ot, oc, oa⟩
  constructor
  · intro b db' h
    cases ot with
    | none => simp [addBlog] at h
    | some t =>
      cases oc with
      | none => simp [addBlog] at h
      | some c =>
        cases oa with
        | none => simp [addBlog] at h
        | some aid =>
          by_cases hemp : (t == "" || c == "") = true
          · simp [addBlog, hemp] at h
          · cases hfind : db.members.find? (fun m => m.id == aid) with
            | none =>
              simp [addBlog, hemp, hfind] at h
            | some author =>
              have h' := h
              simp only [addBlog, hemp, hfind] at h'
              rw [Bool.not_eq_true] at hemp
              simp only [hemp, Bool.false_eq_true, if_false, hfind] at h'
              rcases Prod.mk.injEq .. ▸ h' with ⟨hb, hdb⟩
              cases hb
              cases hdb
              exact ⟨author, by simpa using hfind, rfl, rfl, rfl, rfl, rfl,
                rfl, rfl, rfl⟩
  · intro t c aid ht hte hc hce ha hfind
    cases ht
    cases hc
    cases ha
    have hemp : (t == "" || c == "") = false := by
      simp [hte, hce]
    simp [addBlog, hemp, hfind]

/-- C6 witness: adding a blog authored by member 1 of the populated store
copies Ada's name, email and department into the stored blog, and adding
one for the absent author 99 throws `Author not found`. -/
theorem addBlog_correct_witness :
    (∃ author,
      db1.members.find?
        (fun m => m.id ==
          ((addBlog db1 { title := some "T", content := some "C", authorId := some 1 } 40).1.toOption.map BlogDoc.authorId).getD 0) =
        some author) ∧
    addBlog db1 { title := some "T", content := some "C", authorId := some 99 } 40 =
      (.error "Author not found", db1) := by
  refine ⟨?_, (addBlog_correct db1 _ 40).2 "T" "C" 99 rfl (by decide) rfl
    (by decide) rfl (by decide)⟩
  exact ⟨memberAda, by decide⟩

/-- C7: the connection cache is idempotent under sequential calls: after
any positive number of calls starting from the fresh process state exactly
one `MongoClient` has been constructed, every call returned the same
handle, and `connectToDatabase` of join.js is the same get-or-create
logic. -/
theorem connectionCache_idempotent (n : Nat) :
    (connectSeq (n + 1) initialConnState).2.clientsCreated = 1 ∧
    (∃ h, (connectSeq (n + 1) initialConnState).1 =
      List.replicate (n + 1) h) ∧
    connectToDatabase initialConnState = connectToMongoDB initialConnState := by
  have h1 : connectToMongoDB initialConnState =
      (0, { cache := { conn := some 0, promise := some 0 },
            clientsCreated := 1 }) := rfl
  have hfix : connectSeq n
      ({ cache := { conn := some 0, promise := some 0 },
         clientsCreated := 1 } : ConnState) =
      (List.replicate n 0,
        { cache := { conn := some 0, promise := some 0 },
          clientsCreated := 1 }) :=
    connectSeq_fixed n _ 0 rfl
  have h2 : connectSeq (n + 1) initialConnState =
      (List.replicate (n + 1) 0,
        { cache := { conn := some 0, promise := some 0 },
          clientsCreated := 1 }) := by
    rw [connectSeq, h1]
    simp [hfix, List.replicate]
  exact ⟨by rw [h2], ⟨0, by rw [h2]⟩, rfl⟩

/-- C9: `updateEvent` does not validate dates: for every existing event
the update succeeds whatever `eventDate` was supplied (including one
parsing to a past instant), the stored `eventDate` becomes the parsed
value when one was supplied and stays otherwise, and the only error
`updateEvent` can throw is `Event not found`, exactly when no event has
that id. -/
theorem updateEvent_correct (db : DB) (eid : Nat) (input : EventInput)
    (now : Int) :
    (∀ e, db.events.find? (fun x => x.id == eid) = some e →
      ∃ e', updateEvent db eid input now =
          (.ok e',
            { db with events :=
              updateFirst (fun x => x.id == eid) (fun _ => e') db.events }) ∧
        e'.eventDate = input.eventDate.getD e.eventDate ∧
        e'.updatedAt = now ∧ e'.id = e.id ∧ e'.createdAt = e.createdAt) ∧
    (db.events.find? (fun x => x.id == eid) = none →
      updateEvent db eid input now = (.error "Event not found", db)) ∧
    (∀ msg, (updateEvent db eid input now).1 = Except.error msg →
      msg = "Event not found" ∧
      db.events.find? (fun x => x.id == eid) = none) := by
  refine ⟨?_, ?_, ?_⟩
  · intro e hfind
    refine ⟨applyEventUpdate e input now, ?_, ?_, rfl, rfl, rfl⟩
    · unfold updateEvent
      rw [hfind]
    · unfold applyEventUpdate
      cases input.eventDate <;> rfl
  · intro hfind
    unfold updateEvent
    rw [hfind]
  · intro msg hmsg
    cases hfind : db.events.find? (fun x => x.id == eid) with
    | none =>
      unfold updateEvent at hmsg
      rw [hfind] at hmsg
      cases hmsg
      exact ⟨rfl, rfl⟩
    | some e =>
      unfold updateEvent at hmsg
      rw [hfind] at hmsg
      cases hmsg

/-- C9 witness: updating event 3 of the populated store with a date far in
the past (creation time is 40, the supplied date parses to -5) succeeds
and stores that past date, while updating the absent id 99 throws `Event
not found`. -/
theorem updateEvent_correct_witness :
    (∃ e', updateEvent db1 3
        { title := none, description := none, eventDate := some (some (-5))
          location := none } 40 =
        (.ok e',
          { db1 with events :=
            updateFirst (fun x => x.id == 3) (fun _ => e') db1.events }) ∧
      e'.eventDate = (some (some (-5)) : Option (Option Int)).getD (eventTea.eventDate) ∧
      e'.updatedAt = 40 ∧ e'.id = eventTea.id ∧
      e'.createdAt = eventTea.createdAt) ∧
    updateEvent db1 99
        { title := none, description := none, eventDate := some (some (-5))
          location := none } 40 =
      (.error "Event not found", db1) :=
  ⟨(updateEvent_correct db1 3 _ 40).1 eventTea (by decide),
   (updateEvent_correct db1 99 _ 40).2.1 (by decide)⟩

/-- C8: on an existing member (and with the email-uniqueness guard
passing), `updateMember` refreshes `updatedAt` and overwrites exactly the
fields whose incoming value is truthy — name, email, department and
interests trimmed (email also lowercased), year as given — while every
falsy field, together with `id`, `joinedAt` and `createdAt`, keeps its
stored value; members with a different id are untouched, and whenever
`updateMember` throws, the store is unchanged. -/
theorem updateMember_frame (db : DB) (mid : Nat) (input : MemberInput)
    (now : Int) :
    (∀ m, db.members.find? (fun x => x.id == mid) = some m →
      emailTakenByOther db mid input = false →
      ∃ m', updateMember db mid input now =
          (.ok m',
            { db with members :=
              updateFirst (fun x => x.id == mid) (fun _ => m') db.members }) ∧
        m'.id = m.id ∧ m'.joinedAt = m.joinedAt ∧ m'.createdAt = m.createdAt ∧
        m'.updatedAt = some now ∧
        (truthyStr input.name = false → m'.name = m.name) ∧
        (truthyStr input.email = false → m'.email = m.email) ∧
        (truthyStr input.department = false → m'.department = m.department) ∧
        (truthyStr input.year = false → m'.year = m.year) ∧
        (truthyStr input.interests = false → m'.interests = m.interests) ∧
        (truthyStr input.name = true →
          m'.name = some (jsTrim (input.name.getD ""))) ∧
        (truthyStr input.email = true →
          m'.email = some (jsTrim (jsToLowerCase (input.email.getD "")))) ∧
        (truthyStr input.department = true →
          m'.department = some (jsTrim (input.department.getD ""))) ∧
        (truthyStr input.year = true → m'.year = input.year) ∧
        (truthyStr input.interests = true →
          m'.interests = some (jsTrim (input.interests.getD ""))) ∧
        (∀ x ∈ db.members, x.id ≠ mid →
          x ∈ (updateMember db mid input now).2.members)) ∧
    (∀ msg, (updateMember db mid input now).1 = Except.error msg →
      (updateMember db mid input now).2 = db) := by
  constructor
  · intro m hfind hemail
    have hok : updateMember db mid input now =
        (.ok (applyMemberUpdate m input now),
          { db with members := updateFirst (fun x => x.id == mid) (fun _ => applyMemberUpdate m input now) db.members }) := by
      unfold updateMember
      rw [if_neg (by simp [hemail]), hfind]
    refine ⟨applyMemberUpdate m input now, hok, rfl, rfl, rfl, rfl,
      ?_, ?_, ?_, ?_, ?_, ?_, ?_, ?_, ?_, ?_, ?_⟩
    · intro h
      simp [applyMemberUpdate, h]
    · intro h
      simp [applyMemberUpdate, h]
    · intro h
      simp [applyMemberUpdate, h]
    · intro h
      simp [applyMemberUpdate, h]
    · intro h
      simp [applyMemberUpdate, h]
    · intro h
      simp [applyMemberUpdate, h]
    · intro h
      simp [applyMemberUpdate, h]
    · intro h
      simp [applyMemberUpdate, h]
    · intro h
      simp [applyMemberUpdate, h]
    · intro h
      simp [applyMemberUpdate, h]
    · intro x hx hne
      rw [hok]
      exact mem_updateFirst_of_not _ _ _ _ hx (by simp [hne])
  · intro msg hmsg
    by_cases he : emailTakenByOther db mid input = true
    · unfold updateMember
      rw [if_pos he]
    · cases hfind : db.members.find? (fun x => x.id == mid) with
      | none =>
        unfold updateMember
        rw [if_neg he, hfind]
      | some m =>
        unfold updateMember at hmsg
        rw [if_neg he, hfind] at hmsg
        cases hmsg

/-- C8 witness: updating member 1 of the populated store with a truthy
name and a falsy (absent) department changes the name and keeps the
department, `joinedAt` and `createdAt` as stored. -/
theorem updateMember_frame_witness :
    ∃ m', updateMember db1 1
        { name := some " Ada L ", email := none, department := none
          year := none, interests := none, joinedAt := none
          createdAt := none, updatedAt := none } 50 =
        (.ok m',
          { db1 with members :=
            updateFirst (fun x => x.id == 1) (fun _ => m') db1.members }) ∧
      m'.id = memberAda.id ∧ m'.joinedAt = memberAda.joinedAt ∧
      m'.createdAt = memberAda.createdAt ∧ m'.updatedAt = some 50 ∧
      (truthyStr none = false → m'.email = memberAda.email) ∧
      (truthyStr (some " Ada L ") = true →
        m'.name = some (jsTrim ((some " Ada L ").getD ""))) := by
  obtain ⟨m', h1, h2, h3, h4, h5, _, he, _, _, _, hn, _⟩ :=
    (updateMember_frame db1 1
      { name := some " Ada L ", email := none, department := none
        year := none, interests := none, joinedAt := none
        createdAt := none, updatedAt := none } 50).1 memberAda
      (by decide) (by decide)
  exact ⟨m', h1, h2, h3, h4, h5, fun _ => he rfl, fun _ => hn rfl⟩

/-- C10: `getRecentActivity` returns at most `min limit 15` entries, every
returned entry comes from the merged top-5-per-kind pool (so anything
older than the five newest of its kind can never appear, whatever the
limit), and — whenever every pooled entry carries a date, which holds for
all service-created documents — the result is sorted by `activityDate`
descending. -/
theorem getRecentActivity_correct (db : DB) (limit : Nat) :
    (getRecentActivity db limit).length ≤ min limit 15 ∧
    (∀ a ∈ getRecentActivity db limit, a ∈ allRecentActivities db) ∧
    ((∀ a ∈ allRecentActivities db, a.activityDate.isSome = true) →
      (getRecentActivity db limit).Pairwise
        (fun a b => ∀ x y, a.activityDate = some x →
          b.activityDate = some y → y ≤ x)) := by
  have hlen : (allRecentActivities db).length ≤ 15 := by
    have h1 : (recentMemberActivities db).length ≤ 5 := by
      simp only [recentMemberActivities, List.length_map, List.length_take,
        length_sortBy]
      omega
    have h2 : (recentBlogActivities db).length ≤ 5 := by
      simp only [recentBlogActivities, List.length_map, List.length_take,
        length_sortBy]
      omega
    have h3 : (recentEventActivities db).length ≤ 5 := by
      simp only [recentEventActivities, List.length_map, List.length_take,
        length_sortBy]
      omega
    simp only [allRecentActivities, List.length_append]
    omega
  refine ⟨?_, ?_, ?_⟩
  · rw [getRecentActivity, List.length_take, length_sortBy]
    omega
  · intro a ha
    rw [getRecentActivity] at ha
    exact (mem_sortBy actGe a _).mp ((List.take_sublist _ _).mem ha)
  · intro hvalid
    have htrans : ∀ a b c : Activity,
        a.activityDate.isSome = true → b.activityDate.isSome = true →
        c.activityDate.isSome = true → actGe a b = true → actGe b c = true →
        actGe a c = true := by
      intro a b c ha hb hc hab hbc
      obtain ⟨x, hx⟩ := Option.isSome_iff_exists.mp ha
      obtain ⟨y, hy⟩ := Option.isSome_iff_exists.mp hb
      obtain ⟨z, hz⟩ := Option.isSome_iff_exists.mp hc
      simp only [actGe, hx, hy, hz, decide_eq_true_eq] at hab hbc ⊢
      omega
    have htotal : ∀ a b : Activity,
        a.activityDate.isSome = true → b.activityDate.isSome = true →
        actGe a b = true ∨ actGe b a = true := by
      intro a b ha hb
      obtain ⟨x, hx⟩ := Option.isSome_iff_exists.mp ha
      obtain ⟨y, hy⟩ := Option.isSome_iff_exists.mp hb
      simp only [actGe, hx, hy, decide_eq_true_eq]
      omega
    have hp := pairwise_sortBy actGe (fun a => a.activityDate.isSome = true)
      htrans htotal (allRecentActivities db) hvalid
    have hp2 := hp.sublist (List.take_sublist limit _)
    rw [getRecentActivity]
    refine hp2.imp ?_
    intro a b hab x y hx hy
    simpa only [actGe, hx, hy, decide_eq_true_eq] using hab

/-- C10 witness: on the populated store with limit 2, the activity feed is
sorted by date descending (every stored document there carries a date). -/
theorem getRecentActivity_correct_witness :
    (getRecentActivity db1 2).Pairwise
      (fun a b => ∀ x y, a.activityDate = some x →
        b.activityDate = some y → y ≤ x) :=
  (getRecentActivity_correct db1 2).2.2 (by decide)

/-- A join.js registration body with a mixed-case email. -/
def joinBody : MemberInput :=
  { name := some "Ada", email := some "A@b.com", department := none
    year := none, interests := none, joinedAt := none, createdAt := none
    updatedAt := none }

instance {ε α : Type} [DecidableEq ε] [DecidableEq α] :
    DecidableEq (Except ε α) := fun x y =>
  match x, y with
  | .ok a, .ok b =>
    if h : a = b then isTrue (by rw [h])
    else isFalse (by intro hc; cases hc; exact h rfl)
  | .error a, .error b =>
    if h : a = b then isTrue (by rw [h])
    else isFalse (by intro hc; cases hc; exact h rfl)
  | .ok _, .error _ => isFalse (by intro hc; cases hc)
  | .error _, .ok _ => isFalse (by intro hc; cases hc)

/-- Inversion of a successful `registerMember`: the inputs passed every
guard, and the stored member is the normalized document appended to the
collection. -/
theorem registerMember_ok (db : DB) (input : MemberInput) (now : Int)
    (m : MemberDoc) (db' : DB)
    (h : registerMember db input now = (.ok m, db')) :
    ∃ name email, input.name = some name ∧ input.email = some email ∧
      (name == "" || email == "") = false ∧ emailRegexTest email = true ∧
      db.members.find? (fun x => x.email == some email) = none ∧
      m = { id := db.nextId, name := some (jsTrim name)
            email := some (jsTrim (jsToLowerCase email))
            department := optTrim input.department
            year := optOrNull input.year
            interests := optTrim input.interests
            joinedAt := some now, createdAt := some now
            updatedAt := some now } ∧
      db' = { db with members := db.members ++ [m], nextId := db.nextId + 1 } := by
  rcases input with ⟨onm, oe, od, oy, oi, oj, oc, ou⟩
  cases onm with
  | none => simp [registerMember] at h
  | some name =>
    cases oe with
    | none => simp [registerMember] at h
    | some email =>
      by_cases h1 : (name == "" || email == "") = true
      · simp [registerMember, h1] at h
      · rw [Bool.not_eq_true] at h1
        by_cases h2 : emailRegexTest email = true
        · by_cases h3 :
            (db.members.find? (fun x => x.email == some email)).isSome = true
          · simp [registerMember, h1, h2, h3] at h
          · rw [Bool.not_eq_true] at h3
            simp only [registerMember, h1, h2, h3, Bool.false_eq_true,
              if_false, Bool.not_true, if_true, Prod.mk.injEq,
              Except.ok.injEq] at h
            obtain ⟨hm, hdb⟩ := h
            refine ⟨name, email, rfl, rfl, h1, h2,
              Option.not_isSome_iff_eq_none.mp (by simp [h3]), ?_, ?_⟩
            · exact hm.symm
            · rw [← hdb, ← hm]
        · simp [registerMember, h1, h2] at h

/-- Inversion of a successful `addEvent`: the guards passed — in
particular `eventDateObj <= new Date()` was false — and the stored event
is the normalized document appended to the collection. -/
theorem addEvent_ok (db : DB) (input : EventInput) (now : Int)
    (ev : EventDoc) (db' : DB)
    (h : addEvent db input now = (.ok ev, db')) :
    ∃ t d, input.title = some t ∧ (t == "") = false ∧
      input.eventDate = some d ∧ jsDateLe d now = false ∧
      ev = { id := db.nextId, title := jsTrim t
             description := optTrim input.description, eventDate := d
             location := optTrim input.location, createdAt := now
             updatedAt := now } ∧
      db' = { db with events := db.events ++ [ev], nextId := db.nextId + 1 } := by
  rcases input with ⟨ot, od, oe, ol⟩
  cases ot with
  | none => simp [addEvent] at h
  | some t =>
    cases oe with
    | none => simp [addEvent] at h
    | some d =>
      by_cases h1 : (t == "") = true
      · simp [addEvent, h1] at h
      · rw [Bool.not_eq_true] at h1
        by_cases h2 : jsDateLe d now = true
        · simp [addEvent, h1, h2] at h
        · rw [Bool.not_eq_true] at h2
          simp only [addEvent, h1, h2, Bool.false_eq_true, if_false,
            Prod.mk.injEq, Except.ok.injEq] at h
          obtain ⟨hev, hdb⟩ := h
          exact ⟨t, d, rfl, h1, rfl, h2, hev.symm, by rw [← hdb, ← hev]⟩

/-- Inversion of a successful `addBlog`: all three fields were present
and truthy, the author lookup succeeded, and the stored blog is the
snapshot document appended to the collection. -/
theorem addBlog_ok (db : DB) (input : BlogInput) (now : Int)
    (b : BlogDoc) (db' : DB) (h : addBlog db input now = (.ok b, db')) :
    ∃ t c aid author, input.title = some t ∧ input.content = some c ∧
      input.authorId = some aid ∧
      db.members.find? (fun m => m.id == aid) = some author ∧
      b = { id := db.nextId, title := jsTrim t, content := jsTrim c
            authorId := aid, authorName := author.name
            authorEmail := author.email
            authorDepartment := author.department, createdAt := now
            updatedAt := now } ∧
      db' = { db with blogs := db.blogs ++ [b], nextId := db.nextId + 1 } := by
  rcases input with ⟨ot, oc, oa⟩
  cases ot with
  | none => simp [addBlog] at h
  | some t =>
    cases oc with
    | none => simp [addBlog] at h
    | some c =>
      cases oa with
      | none => simp [addBlog] at h
      | some aid =>
        by_cases h1 : (t == "" || c == "") = true
        · simp [addBlog, h1] at h
        · rw [Bool.not_eq_true] at h1
          cases hfind : db.members.find? (fun m => m.id == aid) with
          | none => simp [addBlog, h1, hfind] at h
          | some author =>
            simp only [addBlog, h1, hfind, Bool.false_eq_true, if_false,
              Prod.mk.injEq, Except.ok.injEq] at h
            obtain ⟨hb, hdb⟩ := h
            exact ⟨t, c, aid, author, rfl, rfl, rfl, hfind, hb.symm,
              by rw [← hdb, ← hb]⟩

/-- Inversion of a 200 from the join.js handler: name and email were
present and truthy, the email passed the regex, and the handler appended
a document holding the email exactly as submitted, with `createdAt` as
its only server timestamp. -/
theorem joinHandler_post_ok (db : DB) (body : Option MemberInput)
    (now : Int) (h : (joinHandler "POST" body db now).status = 200) :
    ∃ name email, (body.getD emptyMemberInput).name = some name ∧
      (body.getD emptyMemberInput).email = some email ∧
      (name == "" || email == "") = false ∧ emailRegexTest email = true ∧
      (joinHandler "POST" body db now).db =
        { db with
          members := db.members ++
            [{ id := db.nextId, name := some name, email := some email
               department := optOrNull (body.getD emptyMemberInput).department
               year := optOrNull (body.getD emptyMemberInput).year
               interests := optOrNull (body.getD emptyMemberInput).interests
               joinedAt := none, createdAt := some now, updatedAt := none }]
          nextId := db.nextId + 1 } := by
  unfold joinHandler at h ⊢
  rw [if_neg (by decide), if_neg (by decide)] at h ⊢
  cases hn : (body.getD emptyMemberInput).name with
  | none =>
    rw [hn] at h
    simp at h
  | some name =>
    cases he : (body.getD emptyMemberInput).email with
    | none =>
      rw [hn, he] at h
      simp at h
    | some email =>
      rw [hn, he] at h
      by_cases h1 : (name == "" || email == "") = true
      · simp [h1] at h
      · rw [Bool.not_eq_true] at h1
        by_cases h2 : emailRegexTest email = true
        · refine ⟨name, email, rfl, rfl, h1, h2, ?_⟩
          simp [h1, h2]
        · simp [h1, h2] at h

/-- An event body whose date parses to instant 3. -/
def pastEventInput : EventInput :=
  { title := some "T", description := none, eventDate := some (some 3)
    location := none }

/-- An event body whose date parses to instant 9. -/
def futureEventInput : EventInput :=
  { title := some "T", description := none, eventDate := some (some 9)
    location := none }

/-- An event body whose truthy date string fails to parse (Invalid
Date). -/
def invalidDateEventInput : EventInput :=
  { title := some "Tea", description := none, eventDate := some none
    location := none }

/-- C3 counterexample: with creation time 5 and a truthy `eventDate` that
parses to the Invalid Date (any unparseable string), the parsed date is
not strictly later than the current time — it is later than nothing — yet
`addEvent` does not throw: the `eventDateObj <= new Date()` guard is
false on NaN, so the event is inserted carrying the invalid date. -/
theorem addEvent_pastcheck_counterexample :
    (∃ ev, (addEvent db0 invalidDateEventInput 5).1 = .ok ev ∧
      ev.eventDate = none ∧
      (addEvent db0 invalidDateEventInput 5).2.events = [ev]) ∧
    (¬ ∃ t : Int, (none : Option Int) = some t ∧ 5 < t) := by
  constructor
  · exact ⟨{ id := 0, title := "Tea", description := none, eventDate := none
             location := none, createdAt := 5, updatedAt := 5 },
      by decide, rfl, by decide⟩
  · rintro ⟨t, ht, _⟩
    cases ht

/-- C3 amended: `addEvent` throws (inserting nothing) when `title` or
`eventDate` is missing or falsy, and when the parsed `eventDate` is a
valid date not strictly later than the current time; a truthy `eventDate`
that parses to the Invalid Date passes the future check and the event is
stored carrying it.  On success the stored `eventDate` equals the parsed
value, and whenever that value is a valid date it is strictly in the
future at creation time. -/
theorem addEvent_correct (db : DB) (input : EventInput) (now : Int) :
    ((input.title = none ∨ input.title = some "" ∨ input.eventDate = none) →
      addEvent db input now =
        (.error "Title and event date are required", db)) ∧
    (∀ t d, input.title = some t → t ≠ "" → input.eventDate = some d →
      jsDateLe d now = true →
      addEvent db input now =
        (.error "Event date must be in the future", db)) ∧
    (∀ t d, input.title = some t → t ≠ "" → input.eventDate = some d →
      jsDateLe d now = false →
      ∃ ev, addEvent db input now =
          (.ok ev,
            { db with events := db.events ++ [ev], nextId := db.nextId + 1 }) ∧
        ev.eventDate = d ∧ ev.createdAt = now ∧ ev.updatedAt = now ∧
        (∀ x, d = some x → now < x)) := by
  rcases input with ⟨ot, od, oe, ol⟩
  refine ⟨?_, ?_, ?_⟩
  · intro h
    rcases h with h | h | h
    · cases h
      cases oe <;> simp [addEvent]
    · cases h
      cases oe <;> simp [addEvent]
    · cases h
      cases ot <;> simp [addEvent]
  · intro t d ht hte hd hle
    cases ht
    cases hd
    simp [addEvent, hte, hle]
  · intro t d ht hte hd hle
    cases ht
    cases hd
    refine ⟨{ id := db.nextId, title := jsTrim t, description := optTrim od
              eventDate := d, location := optTrim ol, createdAt := now
              updatedAt := now }, ?_, rfl, rfl, rfl, ?_⟩
    · simp [addEvent, hte, hle]
    · intro x hx
      cases hx
      simp [jsDateLe] at hle
      omega

/-- C3 witness: at creation time 5, a valid date 3 in the past is
rejected with `Event date must be in the future`, and a valid future date
9 is accepted and stored as the event's `eventDate`. -/
theorem addEvent_correct_witness :
    addEvent db0 pastEventInput 5 =
      (.error "Event date must be in the future", db0) ∧
    (∃ ev, addEvent db0 futureEventInput 5 =
        (.ok ev,
          { db0 with events := db0.events ++ [ev], nextId := db0.nextId + 1 }) ∧
      ev.eventDate = some 9 ∧ ev.createdAt = 5 ∧ ev.updatedAt = 5 ∧
      (∀ x, (some 9 : Option Int) = some x → (5 : Int) < x)) :=
  ⟨(addEvent_correct db0 pastEventInput 5).2.1 "T" (some 3) rfl (by decide)
      rfl (by decide),
   (addEvent_correct db0 futureEventInput 5).2.2 "T" (some 9) rfl (by decide)
      rfl (by decide)⟩

/-- C4 counterexample: the raw-insert handler of src/unnamed/part_000
accepts a POST whose body carries no fields at all and stores the
document verbatim: the created member has neither `createdAt` nor
`updatedAt`, so not every creation entry point stamps server-generated
timestamps. -/
theorem creation_timestamps_counterexample :
    (part000Handler "POST" emptyMemberInput db0).status = 200 ∧
    ∃ m, (part000Handler "POST" emptyMemberInput db0).db.members = [m] ∧
      m.createdAt = none ∧ m.updatedAt = none := by
  exact ⟨rfl, ⟨_, rfl, rfl, rfl⟩⟩

/-- C4 amended: the three `DatabaseService` creation operations stamp
server-generated `createdAt` and `updatedAt` equal to the creation
instant on every document they store (`registerMember` also `joinedAt`),
whatever the client supplied; the join.js handler stamps only `createdAt`
and stores no `updatedAt` or `joinedAt`; and the part_000 handler stores
the client body verbatim, stamping nothing — its document's timestamps
are exactly the client's. -/
theorem creation_timestamps_correct (db : DB) (now : Int) :
    (∀ input m db', registerMember db input now = (.ok m, db') →
      m.createdAt = some now ∧ m.updatedAt = some now ∧
      m.joinedAt = some now) ∧
    (∀ input ev db', addEvent db input now = (.ok ev, db') →
      ev.createdAt = now ∧ ev.updatedAt = now) ∧
    (∀ input b db', addBlog db input now = (.ok b, db') →
      b.createdAt = now ∧ b.updatedAt = now) ∧
    (∀ body, (joinHandler "POST" body db now).status = 200 →
      ∃ m, (joinHandler "POST" body db now).db.members =
          db.members ++ [m] ∧
        m.createdAt = some now ∧ m.updatedAt = none ∧ m.joinedAt = none) ∧
    (∀ body : MemberInput, ∃ m,
      (part000Handler "POST" body db).db.members = db.members ++ [m] ∧
      m.createdAt = body.createdAt ∧ m.updatedAt = body.updatedAt) := by
  refine ⟨?_, ?_, ?_, ?_, ?_⟩
  · intro input m db' h
    obtain ⟨name, email, _, _, _, _, _, hm, _⟩ :=
      registerMember_ok db input now m db' h
    rw [hm]
    exact ⟨rfl, rfl, rfl⟩
  · intro input ev db' h
    obtain ⟨t, d, _, _, _, _, hev, _⟩ := addEvent_ok db input now ev db' h
    rw [hev]
    exact ⟨rfl, rfl⟩
  · intro input b db' h
    obtain ⟨t, c, aid, author, _, _, _, _, hb, _⟩ :=
      addBlog_ok db input now b db' h
    rw [hb]
    exact ⟨rfl, rfl⟩
  · intro body h
    obtain ⟨name, email, _, _, _, _, hdb⟩ :=
      joinHandler_post_ok db body now h
    rw [hdb]
    exact ⟨_, rfl, rfl, rfl, rfl⟩
  · intro body
    exact ⟨_, rfl, rfl, rfl⟩

/-- The member document `registerMember` stores for `joinBody` at
instant 7. -/
def adaStored : MemberDoc :=
  { id := 0, name := some "Ada", email := some "a@b.com", department := none
    year := none, interests := none, joinedAt := some 7, createdAt := some 7
    updatedAt := some 7 }

/-- C4 witness: registering Ada through `registerMember` on the empty
store at instant 7 stamps `createdAt`, `updatedAt` and `joinedAt` with 7,
and a join.js POST at instant 7 appends a member whose only server
timestamp is `createdAt = 7`. -/
theorem creation_timestamps_correct_witness :
    (adaStored.createdAt = some 7 ∧ adaStored.updatedAt = some 7 ∧
      adaStored.joinedAt = some 7) ∧
    (∃ m, (joinHandler "POST" (some joinBody) db0 7).db.members =
        db0.members ++ [m] ∧
      m.createdAt = some 7 ∧ m.updatedAt = none ∧ m.joinedAt = none) :=
  ⟨(creation_timestamps_correct db0 7).1 joinBody adaStored
      { members := [adaStored], events := [], blogs := [], nextId := 1 }
      (by decide),
   (creation_timestamps_correct db0 7).2.2.2.1 (some joinBody) (by decide)⟩

/-- C1 counterexample: registering twice through the join.js handler with
email `"A@b.com"` succeeds both times; the stored email keeps its capital
letter (lowercasing would give `"a@b.com"`), and afterwards two distinct
member documents carry the same email — creation did not fail on the
duplicate.  So stored emails are neither lowercased nor unique across the
member-creation entry points. -/
theorem memberEmail_counterexample :
    (joinHandler "POST" (some joinBody) db0 0).status = 200 ∧
    (joinHandler "POST" (some joinBody)
      (joinHandler "POST" (some joinBody) db0 0).db 0).status = 200 ∧
    (joinHandler "POST" (some joinBody)
        (joinHandler "POST" (some joinBody) db0 0).db 0).db.members.map
      (fun m => (m.id, m.email)) =
      [(0, some "A@b.com"), (1, some "A@b.com")] ∧
    jsToLowerCase "A@b.com" ≠ "A@b.com" := by
  decide

/-- C1 amended: of the three member-creation entry points only
`registerMember` normalizes and guards the email: every member it stores
holds the lowercased trim of the submitted email, and it fails with
`Email already registered` exactly when some stored member's email equals
the raw submitted string (so a case variant of a stored email passes the
guard).  The join.js handler stores the email exactly as submitted,
checking only the format regex and never uniqueness, and the part_000
handler stores the client body — email included — verbatim with no check
at all; lowercasing and uniqueness therefore do not hold across the
collection. -/
theorem memberEmail_correct (db : DB) (now : Int) :
    (∀ input m db', registerMember db input now = (.ok m, db') →
      ∃ email, input.email = some email ∧
        m.email = some (jsTrim (jsToLowerCase email)) ∧
        db.members.find? (fun x => x.email == some email) = none) ∧
    (∀ input name email, input.name = some name → name ≠ "" →
      input.email = some email → emailRegexTest email = true →
      (db.members.find? (fun x => x.email == some email)).isSome = true →
      registerMember db input now = (.error "Email already registered", db)) ∧
    (∀ body name email, (body.getD emptyMemberInput).name = some name →
      name ≠ "" → (body.getD emptyMemberInput).email = some email →
      email ≠ "" → emailRegexTest email = true →
      (joinHandler "POST" body db now).status = 200 ∧
      (∃ m, (joinHandler "POST" body db now).db.members =
          db.members ++ [m] ∧ m.email = some email)) ∧
    (∀ body : MemberInput, ∃ m,
      (part000Handler "POST" body db).db.members = db.members ++ [m] ∧
      m.email = body.email) := by
  refine ⟨?_, ?_, ?_, ?_⟩
  · intro input m db' h
    obtain ⟨name, email, _, he, _, _, hnone, hm, _⟩ :=
      registerMember_ok db input now m db' h
    exact ⟨email, he, by rw [hm], hnone⟩
  · intro input name email hn hne he hregex hdup
    have hee : email ≠ "" := by
      intro hh
      rw [hh] at hregex
      exact absurd hregex (by decide)
    have hcond : (name == "" || email == "") = false := by
      simp [hne, hee]
    simp [registerMember, hn, he, hcond, hregex, hdup]
  · intro body name email hn hne he hee hregex
    have hcond : (name == "" || email == "") = false := by
      simp [hne, hee]
    have hr : (!emailRegexTest email) = false := by
      simp [hregex]
    constructor
    · unfold joinHandler
      rw [if_neg (by decide), if_neg (by decide), hn, he]
      simp [hcond, hr]
    · refine ⟨{ id := db.nextId, name := some name, email := some email
                department := optOrNull (body.getD emptyMemberInput).department
                year := optOrNull (body.getD emptyMemberInput).year
                interests := optOrNull (body.getD emptyMemberInput).interests
                joinedAt := none, createdAt := some now
                updatedAt := none }, ?_, rfl⟩
      unfold joinHandler
      rw [if_neg (by decide), if_neg (by decide), hn, he]
      simp [hcond, hr]
  · intro body
    exact ⟨_, rfl, rfl⟩

/-- C1 witness: registering `joinBody` (email `"A@b.com"`) through
`registerMember` on the empty store stores the lowercased `"a@b.com"`;
registering `"ada@club.org"` on the populated store, where that exact
string is already stored, is rejected with `Email already registered`;
and a join.js POST of the same body stores `"A@b.com"` uppercase and
all. -/
theorem memberEmail_correct_witness :
    (∃ email, joinBody.email = some email ∧
      adaStored.email = some (jsTrim (jsToLowerCase email)) ∧
      db0.members.find? (fun x => x.email == some email) = none) ∧
    registerMember db1
        { name := some "Eve", email := some "ada@club.org"
          department := none, year := none, interests := none
          joinedAt := none, createdAt := none, updatedAt := none } 0 =
      (.error "Email already registered", db1) ∧
    ((joinHandler "POST" (some joinBody) db0 0).status = 200 ∧
      (∃ m, (joinHandler "POST" (some joinBody) db0 0).db.members =
          db0.members ++ [m] ∧ m.email = some "A@b.com")) :=
  ⟨(memberEmail_correct db0 7).1 joinBody adaStored
      { members := [adaStored], events := [], blogs := [], nextId := 1 }
      (by decide),
   (memberEmail_correct db1 0).2.1 _ "Eve" "ada@club.org" rfl (by decide)
      rfl (by decide) (by decide),
   (memberEmail_correct db0 0).2.2.1 (some joinBody) "Ada" "A@b.com" rfl
      (by decide) rfl (by decide) (by decide)⟩

/-- C5 counterexample: an OPTIONS request with the unknown action `bogus`
is answered 200 by the CORS-preflight branch before any routing, not 400
`Invalid action`, so not every request whose action lies outside the
supported set gets 400. -/
theorem router_options_counterexample :
    (routerHandler db0 "OPTIONS"
      { action := some "bogus", id := none, author := none }
      emptyBody 0).status = 200 ∧
    (routerHandler db0 "OPTIONS"
      { action := some "bogus", id := none, author := none }
      emptyBody 0).error ≠ some "Invalid action" := by
  decide

/-- C5 amended: for every request other than the OPTIONS preflight (which
is answered 200 before routing), an action outside
members/events/blogs/dashboard/activity/stats — or an absent action — is
answered 400 `Invalid action`; a collection action with an HTTP method
outside GET/POST/PUT/DELETE is answered 405 `Method not allowed`, as is a
non-GET method on dashboard/activity/stats; all of these leave the store
untouched and dispatch to no operation. -/
theorem routerHandler_correct (db : DB) (method : String) (q : Query)
    (body : Body) (now : Int) (hm : method ≠ "OPTIONS") :
    ((∀ a, q.action = some a →
        a ∉ (["members", "events", "blogs", "dashboard", "activity",
          "stats"] : List String)) →
      routerHandler db method q body now =
        { status := 400, error := some "Invalid action", op := none,
          db := db }) ∧
    (∀ a, q.action = some a →
      a ∈ (["members", "events", "blogs"] : List String) →
      method ∉ (["GET", "POST", "PUT", "DELETE"] : List String) →
      routerHandler db method q body now =
        { status := 405, error := some "Method not allowed", op := none,
          db := db }) ∧
    (∀ a, q.action = some a →
      a ∈ (["dashboard", "activity", "stats"] : List String) →
      method ≠ "GET" →
      routerHandler db method q body now =
        { status := 405, error := some "Method not allowed", op := none,
          db := db }) := by
  have hmB : ¬ ((method == "OPTIONS") = true) := by simp [hm]
  refine ⟨?_, ?_, ?_⟩
  · intro hout
    cases hq : q.action with
    | none =>
      unfold routerHandler
      rw [if_neg hmB, hq]
    | some a =>
      have ha := hout a hq
      unfold routerHandler
      rw [if_neg hmB, hq]
      split <;> simp_all
  · intro a hq ha hnm
    have hG : (method == "GET") = false := by
      simp only [beq_eq_false_iff_ne, ne_eq]
      intro h
      exact hnm (by simp [h])
    have hP : (method == "POST") = false := by
      simp only [beq_eq_false_iff_ne, ne_eq]
      intro h
      exact hnm (by simp [h])
    have hU : (method == "PUT") = false := by
      simp only [beq_eq_false_iff_ne, ne_eq]
      intro h
      exact hnm (by simp [h])
    have hD : (method == "DELETE") = false := by
      simp only [beq_eq_false_iff_ne, ne_eq]
      intro h
      exact hnm (by simp [h])
    simp only [List.mem_cons, List.not_mem_nil, or_false] at ha
    unfold routerHandler
    rcases ha with rfl | rfl | rfl <;>
      rw [if_neg hmB, hq] <;> simp [hG, hP, hU, hD]
  · intro a hq ha hne
    have hG : (method == "GET") = false := by
      simp only [beq_eq_false_iff_ne, ne_eq]
      exact hne
    simp only [List.mem_cons, List.not_mem_nil, or_false] at ha
    unfold routerHandler
    rcases ha with rfl | rfl | rfl <;>
      rw [if_neg hmB, hq] <;> simp [hG]

/-- C5 witness: a PATCH with action `bogus` gets 400 `Invalid action`, a
PATCH on the members collection gets 405 `Method not allowed`, and a POST
on `stats` gets 405 as well, all on an untouched store. -/
theorem routerHandler_correct_witness :
    routerHandler db0 "PATCH"
        { action := some "bogus", id := none, author := none } emptyBody 0 =
      { status := 400, error := some "Invalid action", op := none,
        db := db0 } ∧
    routerHandler db0 "PATCH"
        { action := some "members", id := none, author := none } emptyBody 0 =
      { status := 405, error := some "Method not allowed", op := none,
        db := db0 } ∧
    routerHandler db0 "POST"
        { action := some "stats", id := none, author := none } emptyBody 0 =
      { status := 405, error := some "Method not allowed", op := none,
        db := db0 } :=
  ⟨(routerHandler_correct db0 "PATCH" _ emptyBody 0 (by decide)).1
      (fun a ha => by
        obtain rfl : a = "bogus" := (Option.some.inj ha).symm
        decide),
   (routerHandler_correct db0 "PATCH" _ emptyBody 0 (by decide)).2.1
      "members" rfl (by decide) (by decide),
   (routerHandler_correct db0 "POST" _ emptyBody 0 (by decide)).2.2
      "stats" rfl (by decide) (by decide)⟩

end Atomsmiths
